import Mathlib

/-!
Verification of the moon-phase terminator path builder from the
`MoonPhase`/CosmicClock frontend component.  The builder is the computed
property `pathD` of the Vue component: it maps an illumination `percent`
(a JS number), a `phase` label and a `hemisphere` string to an SVG path
describing the lit region of a disk of radius 45 centred at (50,50).

The embedding below mirrors the source line by line:
  * `JSNum` models the JS number values the code can actually meet
    (a finite value, NaN, or an infinity) together with IEEE semantics of
    the handful of operations `pathD` performs on them: division by 100,
    comparisons (which are `false` whenever NaN is involved), subtraction
    from 0.5, absolute value, and multiplication by a positive constant.
    Finite values are modelled as rationals: every arithmetic step of the
    source (`/100`, `0.5 - p`, `abs`, `* 90`) is exact on the doubles the
    component receives (integers and plain decimals), so rationals are a
    faithful carrier for the claims at hand.
  * `lowerStr` models `String.prototype.toLowerCase` on the ASCII phase
    labels, `containsSub` models `String.prototype.includes`.
  * `Outline` is the structured form of the returned path string: the two
    degenerate constant strings become `fullDisk` / `empty`, and the
    general two-arc path becomes `lune` carrying the move-to point and the
    two `A` (elliptical-arc) commands with all their numeric parameters.
-/

/-- Values of a JS `number` as seen by `pathD`: a finite value (carried
exactly as a rational), NaN, or one of the two infinities. -/
inductive JSNum where
  | num (q : ℚ)
  | nan
  | posInf
  | negInf
deriving DecidableEq, Repr

/-- JS `percent / 100` (the line `const p = props.percent / 100`). -/
def JSNum.div100 : JSNum → JSNum
  | .num q => .num (q / 100)
  | .nan => .nan
  | .posInf => .posInf
  | .negInf => .negInf

/-- JS `x >= c` for a finite constant `c`; NaN compares false. -/
def JSNum.geQ : JSNum → ℚ → Bool
  | .num q, c => decide (c ≤ q)
  | .nan, _ => false
  | .posInf, _ => true
  | .negInf, _ => false

/-- JS `x <= c` for a finite constant `c`; NaN compares false. -/
def JSNum.leQ : JSNum → ℚ → Bool
  | .num q, c => decide (q ≤ c)
  | .nan, _ => false
  | .posInf, _ => false
  | .negInf, _ => true

/-- JS `x > c` for a finite constant `c`; NaN compares false. -/
def JSNum.gtQ : JSNum → ℚ → Bool
  | .num q, c => decide (c < q)
  | .nan, _ => false
  | .posInf, _ => true
  | .negInf, _ => false

/-- JS `c - x` for a finite constant `c` (the line `0.5 - p`). -/
def JSNum.subFrom (c : ℚ) : JSNum → JSNum
  | .num q => .num (c - q)
  | .nan => .nan
  | .posInf => .negInf
  | .negInf => .posInf

/-- JS `Math.abs`. -/
def JSNum.jsabs : JSNum → JSNum
  | .num q => .num |q|
  | .nan => .nan
  | .posInf => .posInf
  | .negInf => .posInf

/-- JS `c * x` for a positive finite constant `c` (the factor `45 * 2`). -/
def JSNum.mulQ (c : ℚ) : JSNum → JSNum
  | .num q => .num (c * q)
  | .nan => .nan
  | .posInf => .posInf
  | .negInf => .negInf

/-- Whether a JS number is NaN. -/
def JSNum.isNaN : JSNum → Bool
  | .nan => true
  | _ => false

/-- Boolean check that `pat` is a leading segment of `l` (character-exact,
as JS string search is). -/
def isPre : List Char → List Char → Bool
  | [], _ => true
  | _ :: _, [] => false
  | a :: pat, b :: l => decide (a = b) && isPre pat l

/-- JS `s.includes(pat)` on the underlying character lists: `pat` occurs
contiguously somewhere in `s`. -/
def containsSub : List Char → List Char → Bool
  | [], pat => isPre pat []
  | c :: rest, pat => isPre pat (c :: rest) || containsSub rest pat

/-- JS `String.prototype.toLowerCase`, restricted to the ASCII phase
labels the component receives (Lean's `Char.toLower` lower-cases exactly
the ASCII uppercase range). -/
def lowerStr (s : String) : List Char :=
  s.data.map Char.toLower

/-- The computed property `isWaxing`:
`const p = props.phase.toLowerCase(); return p.includes('waxing') || p.includes('first');` -/
def isWaxing (phase : String) : Bool :=
  containsSub (lowerStr phase) "waxing".data || containsSub (lowerStr phase) "first".data

/-- The `litRight` local of `pathD`:
`let litRight = isWaxing.value; if (props.hemisphere === 'Southern') litRight = !litRight;` -/
def litRight (phase hemisphere : String) : Bool :=
  if hemisphere = "Southern" then !isWaxing phase else isWaxing phase

/-- One SVG `A` (elliptical arc) command as emitted by `pathD`:
`A rx,ry rot largeArc,sweep endX,endY`.  `rx` is a `JSNum` because the
source interpolates the computed JS number `rx` directly into the string;
every other slot is a literal constant of the source. -/
structure ArcSeg where
  rx : JSNum
  ry : ℚ
  rot : ℚ
  largeArc : Nat
  sweep : Nat
  endX : ℚ
  endY : ℚ
deriving DecidableEq, Repr

/-- Structured form of the string returned by `pathD`:
  * `fullDisk` is the constant `'M 50,5 A 45,45 0 1,1 50,95 A 45,45 0 1,1 50,5'`,
  * `empty` is the constant `''`,
  * `lune sx sy outer terminator` is `'M sx,sy <outer> <terminator> Z'`. -/
inductive Outline where
  | fullDisk
  | empty
  | lune (startX startY : ℚ) (outer : ArcSeg) (terminator : ArcSeg)
deriving DecidableEq, Repr

/-- The computed property `pathD`, translated clause by clause from the
source (lines 130-197 of the component).  `percent` is the raw JS number
prop; `phase` and `hemisphere` are the string props. -/
def pathD (percent : JSNum) (phase hemisphere : String) : Outline :=
  let p := percent.div100
  let lr := litRight phase hemisphere
  if p.geQ (99/100) then Outline.fullDisk
  else if p.leQ (1/100) then Outline.empty
  else
    let rx := JSNum.mulQ (45 * 2) (JSNum.jsabs (JSNum.subFrom (1/2) p))
    let s0 : Nat := if p.gtQ (1/2) then 1 else 0
    let innerSweep : Nat := if !lr then (if s0 = 1 then 0 else 1) else s0
    let startY : ℚ := if lr then 5 else 95
    let outerEndY : ℚ := if lr then 95 else 5
    let termEndY : ℚ := if lr then 5 else 95
    Outline.lune 50 startY
      ⟨JSNum.num 45, 45, 0, 0, 1, 50, outerEndY⟩
      ⟨rx, 45, 0, 0, innerSweep, 50, termEndY⟩

/-- The move-to point of an outline, when it has one. -/
def Outline.startOf : Outline → Option (ℚ × ℚ)
  | .lune sx sy _ _ => some (sx, sy)
  | _ => none

/-- The outer (half-circle) arc of a lune outline. -/
def Outline.outerOf : Outline → Option ArcSeg
  | .lune _ _ o _ => some o
  | _ => none

/-- The terminator arc of a lune outline. -/
def Outline.terminatorOf : Outline → Option ArcSeg
  | .lune _ _ _ t => some t
  | _ => none

/-- The horizontal radius of the terminator arc of a lune outline. -/
def Outline.rxOf : Outline → Option JSNum
  | .lune _ _ _ t => some t.rx
  | _ => none

/-- The sweep flag of the terminator arc of a lune outline. -/
def Outline.sweepOf : Outline → Option Nat
  | .lune _ _ _ t => some t.sweep
  | _ => none

/-- No numeric slot of the emitted path is NaN (the only slots that can
carry a non-literal JS number are the two `rx` fields). -/
def Outline.nanFree : Outline → Bool
  | .lune _ _ o t => !o.rx.isNaN && !t.rx.isNaN
  | _ => true

/-! ## Shared evaluation lemmas -/

/-- Specification-level substring predicate: `pat` occurs contiguously in
`s`.  This is the independent reading of "contains the substring" used to
check `containsSub` (the embedding of JS `includes`) against the spec. -/
def hasSub (s pat : List Char) : Prop :=
  ∃ l r : List Char, s = l ++ (pat ++ r)

lemma isPre_iff (pat l : List Char) : isPre pat l = true ↔ ∃ r, l = pat ++ r := by
  induction pat generalizing l with
  | nil => simp [isPre]
  | cons a pat ih =>
    cases l with
    | nil => simp [isPre]
    | cons b l =>
      simp only [isPre, Bool.and_eq_true, decide_eq_true_eq, ih, List.cons_append,
        List.cons.injEq]
      constructor
      · rintro ⟨hab, r, hr⟩
        exact ⟨r, hab.symm, hr⟩
      · rintro ⟨r, hab, hr⟩
        exact ⟨hab.symm, r, hr⟩

lemma containsSub_iff (s pat : List Char) : containsSub s pat = true ↔ hasSub s pat := by
  induction s with
  | nil =>
    simp only [containsSub, isPre_iff, hasSub]
    constructor
    · rintro ⟨r, hr⟩
      exact ⟨[], r, hr⟩
    · rintro ⟨l, r, hr⟩
      rcases List.append_eq_nil.mp hr.symm with ⟨hl, hpr⟩
      exact ⟨r, hpr.symm⟩
  | cons c s ih =>
    simp only [containsSub, Bool.or_eq_true, isPre_iff, ih, hasSub]
    constructor
    · rintro (⟨r, hr⟩ | ⟨l, r, hr⟩)
      · exact ⟨[], r, by simpa using hr⟩
      · exact ⟨c :: l, r, by simp [hr]⟩
    · rintro ⟨l, r, hr⟩
      cases l with
      | nil => exact Or.inl ⟨r, by simpa using hr⟩
      | cons c0 l =>
        simp only [List.cons_append, List.cons.injEq] at hr
        exact Or.inr ⟨l, r, hr.2⟩

lemma pathD_num_full (pc : ℚ) (phase hemi : String) (h : (99:ℚ)/100 ≤ pc/100) :
    pathD (JSNum.num pc) phase hemi = Outline.fullDisk := by
  simp [pathD, JSNum.div100, JSNum.geQ, h]

lemma pathD_num_empty (pc : ℚ) (phase hemi : String) (h : pc/100 ≤ (1:ℚ)/100) :
    pathD (JSNum.num pc) phase hemi = Outline.empty := by
  have hge : ¬ ((99:ℚ)/100 ≤ pc/100) := by intro hc; linarith
  simp only [pathD, JSNum.div100, JSNum.geQ, JSNum.leQ, decide_eq_true_eq]
  rw [if_neg hge, if_pos h]

lemma pathD_num_general (pc : ℚ) (phase hemi : String)
    (h1 : (1:ℚ)/100 < pc/100) (h2 : pc/100 < (99:ℚ)/100) :
    pathD (JSNum.num pc) phase hemi =
      Outline.lune 50 (if litRight phase hemi then 5 else 95)
        ⟨JSNum.num 45, 45, 0, 0, 1, 50, if litRight phase hemi then 95 else 5⟩
        ⟨JSNum.num (45 * 2 * |1/2 - pc/100|), 45, 0, 0,
          (if litRight phase hemi then (if (1:ℚ)/2 < pc/100 then 1 else 0)
           else (if (1:ℚ)/2 < pc/100 then 0 else 1)), 50,
          if litRight phase hemi then 5 else 95⟩ := by
  have hge : ¬ ((99:ℚ)/100 ≤ pc/100) := not_le.mpr h2
  have hle : ¬ (pc/100 ≤ (1:ℚ)/100) := not_le.mpr h1
  simp only [pathD, JSNum.div100, JSNum.geQ, JSNum.leQ, JSNum.gtQ, JSNum.subFrom,
    JSNum.jsabs, JSNum.mulQ, decide_eq_true_eq]
  rw [if_neg hge, if_neg hle]
  cases hlr : litRight phase hemi <;>
    by_cases hp : (1:ℚ)/2 < pc/100 <;>
      simp [hlr, hp]

/-! ## Claim theorems -/

/-- C4: `isWaxing` holds iff the lower-cased phase label contains the
substring "waxing" or the substring "first"; every other label classifies
as waning.  The spec's concrete classifications ("Waxing Crescent",
"First Quarter", "WAXING GIBBOUS" waxing; "Waning Gibbous", "Last
Quarter", "Full Moon" waning) are checked verbatim. -/
theorem isWaxing_iff_contains :
    (∀ phase : String,
      isWaxing phase = true ↔
        hasSub (lowerStr phase) "waxing".data ∨ hasSub (lowerStr phase) "first".data) ∧
    isWaxing "Waxing Crescent" = true ∧
    isWaxing "First Quarter" = true ∧
    isWaxing "WAXING GIBBOUS" = true ∧
    isWaxing "Waning Gibbous" = false ∧
    isWaxing "Last Quarter" = false ∧
    isWaxing "Full Moon" = false := by
  refine ⟨fun phase => ?_, by decide, by decide, by decide, by decide, by decide, by decide⟩
  rw [isWaxing, Bool.or_eq_true, containsSub_iff, containsSub_iff]

/-- C5: `litRight` equals `isWaxing` for hemisphere "Northern", and the
"Southern" lit side is the "Northern" one inverted exactly once. -/
theorem litRight_hemisphere_inversion :
    ∀ phase : String,
      litRight phase "Northern" = isWaxing phase ∧
      litRight phase "Southern" = !litRight phase "Northern" := by
  intro phase
  have hn : litRight phase "Northern" = isWaxing phase := by
    rw [litRight, if_neg (by decide)]
  exact ⟨hn, by rw [litRight, if_pos rfl, hn]⟩

/-- C6: for every phase and hemisphere, `percent/100 ≥ 0.99` yields the
full-disk outline and `percent/100 ≤ 0.01` yields the empty outline. -/
theorem pathD_degenerate_cases (pc : ℚ) (phase hemi : String) :
    ((99:ℚ)/100 ≤ pc/100 → pathD (JSNum.num pc) phase hemi = Outline.fullDisk) ∧
    (pc/100 ≤ (1:ℚ)/100 → pathD (JSNum.num pc) phase hemi = Outline.empty) :=
  ⟨fun h => pathD_num_full pc phase hemi h, fun h => pathD_num_empty pc phase hemi h⟩

/-- Witness for C6 at the spec's four concrete inputs: percent 100 and 99
give the full disk, percent 0 and 1 give the empty outline. -/
theorem pathD_degenerate_cases_witness :
    pathD (JSNum.num 100) "Full Moon" "Northern" = Outline.fullDisk ∧
    pathD (JSNum.num 99) "Full Moon" "Northern" = Outline.fullDisk ∧
    pathD (JSNum.num 0) "New Moon" "Northern" = Outline.empty ∧
    pathD (JSNum.num 1) "New Moon" "Northern" = Outline.empty :=
  ⟨(pathD_degenerate_cases 100 "Full Moon" "Northern").1 (by norm_num),
   (pathD_degenerate_cases 99 "Full Moon" "Northern").1 (by norm_num),
   (pathD_degenerate_cases 0 "New Moon" "Northern").2 (by norm_num),
   (pathD_degenerate_cases 1 "New Moon" "Northern").2 (by norm_num)⟩

/-- C2: in the general case `0.01 < percent/100 < 0.99`, the terminator
arc's horizontal radius is exactly `2 · 45 · |0.5 − percent/100|`. -/
theorem terminator_rx_formula (pc : ℚ) (phase hemi : String)
    (h1 : (1:ℚ)/100 < pc/100) (h2 : pc/100 < (99:ℚ)/100) :
    Outline.rxOf (pathD (JSNum.num pc) phase hemi) =
      some (JSNum.num (2 * 45 * |1/2 - pc/100|)) := by
  rw [pathD_num_general pc phase hemi h1 h2]
  simp only [Outline.rxOf]
  norm_num

/-- Witness for C2 at percent 50: the terminator radius is exactly 0
(straight-line terminator at the quarter phases). -/
theorem terminator_rx_formula_witness :
    Outline.rxOf (pathD (JSNum.num 50) "Waxing Crescent" "Northern") =
      some (JSNum.num 0) := by
  have h := terminator_rx_formula 50 "Waxing Crescent" "Northern" (by norm_num) (by norm_num)
  norm_num at h
  exact h

/-- C3: in the general case the terminator sweep flag is 0 for a crescent
and 1 for a gibbous when the right side is lit, and inverted when the
left side is lit. -/
theorem terminator_sweep_rule (pc : ℚ) (phase hemi : String)
    (h1 : (1:ℚ)/100 < pc/100) (h2 : pc/100 < (99:ℚ)/100) :
    (litRight phase hemi = true →
      (pc/100 < (1:ℚ)/2 → Outline.sweepOf (pathD (JSNum.num pc) phase hemi) = some 0) ∧
      ((1:ℚ)/2 < pc/100 → Outline.sweepOf (pathD (JSNum.num pc) phase hemi) = some 1)) ∧
    (litRight phase hemi = false →
      (pc/100 < (1:ℚ)/2 → Outline.sweepOf (pathD (JSNum.num pc) phase hemi) = some 1) ∧
      ((1:ℚ)/2 < pc/100 → Outline.sweepOf (pathD (JSNum.num pc) phase hemi) = some 0)) := by
  constructor
  · intro hlr
    refine ⟨fun hp => ?_, fun hp => ?_⟩
    · rw [pathD_num_general pc phase hemi h1 h2]
      simp only [Outline.sweepOf, hlr, if_true]
      rw [if_neg (lt_asymm hp)]
    · rw [pathD_num_general pc phase hemi h1 h2]
      simp only [Outline.sweepOf, hlr, if_true]
      rw [if_pos hp]
  · intro hlr
    refine ⟨fun hp => ?_, fun hp => ?_⟩
    · rw [pathD_num_general pc phase hemi h1 h2]
      simp only [Outline.sweepOf, hlr, Bool.false_eq_true, if_false]
      rw [if_neg (lt_asymm hp)]
    · rw [pathD_num_general pc phase hemi h1 h2]
      simp only [Outline.sweepOf, hlr, Bool.false_eq_true, if_false]
      rw [if_pos hp]

/-- Witness for C3 at the spec's concrete scenario percent 75, phase
"Waxing Gibbous", hemisphere "Southern": the lit side is the left one,
the sweep flag is 0 and the radius is 22.5. -/
theorem terminator_sweep_rule_witness :
    litRight "Waxing Gibbous" "Southern" = false ∧
    Outline.sweepOf (pathD (JSNum.num 75) "Waxing Gibbous" "Southern") = some 0 ∧
    Outline.rxOf (pathD (JSNum.num 75) "Waxing Gibbous" "Southern") =
      some (JSNum.num (45/2)) := by
  have hlr : litRight "Waxing Gibbous" "Southern" = false := by decide
  refine ⟨hlr, ?_, ?_⟩
  · exact ((terminator_sweep_rule 75 "Waxing Gibbous" "Southern" (by norm_num)
      (by norm_num)).2 hlr).2 (by norm_num)
  · rw [pathD_num_general 75 "Waxing Gibbous" "Southern" (by norm_num) (by norm_num)]
    norm_num [Outline.rxOf, abs]

/-- C7: in the general case the outer arc is a half-circle of radius 45
whose endpoints are exactly the disk's topmost point (50,5) and
bottommost point (50,95), drawn north-to-south when the right side is lit
and south-to-north otherwise, with sweep flag 1 on the lit side. -/
theorem outer_arc_half_circle (pc : ℚ) (phase hemi : String)
    (h1 : (1:ℚ)/100 < pc/100) (h2 : pc/100 < (99:ℚ)/100) :
    Outline.startOf (pathD (JSNum.num pc) phase hemi) =
      some (50, if litRight phase hemi then 5 else 95) ∧
    Outline.outerOf (pathD (JSNum.num pc) phase hemi) =
      some ⟨JSNum.num 45, 45, 0, 0, 1, 50, if litRight phase hemi then 95 else 5⟩ := by
  rw [pathD_num_general pc phase hemi h1 h2]
  exact ⟨rfl, rfl⟩

/-- Witness for C7 at percent 25, "Waxing Crescent", "Northern": the
outer arc runs from (50,5) to (50,95) with radii 45,45 and sweep 1. -/
theorem outer_arc_half_circle_witness :
    Outline.startOf (pathD (JSNum.num 25) "Waxing Crescent" "Northern") = some (50, 5) ∧
    Outline.outerOf (pathD (JSNum.num 25) "Waxing Crescent" "Northern") =
      some ⟨JSNum.num 45, 45, 0, 0, 1, 50, 95⟩ := by
  have h := outer_arc_half_circle 25 "Waxing Crescent" "Northern" (by norm_num) (by norm_num)
  have hlr : litRight "Waxing Crescent" "Northern" = true := by decide
  rw [hlr] at h
  simpa using h

/-- C8: every hemisphere string other than "Southern" (lower-case
"southern" and the empty string included) behaves exactly like
"Northern": no lit-side inversion happens. -/
theorem pathD_default_northern (percent : JSNum) (phase hemi : String)
    (h : hemi ≠ "Southern") :
    pathD percent phase hemi = pathD percent phase "Northern" := by
  have hlr : litRight phase hemi = litRight phase "Northern" := by
    rw [litRight, litRight, if_neg h, if_neg (by decide)]
  unfold pathD
  rw [hlr]

/-- Witness for C8: the unrecognized value "southern" is not inverted. -/
theorem pathD_default_northern_witness :
    pathD (JSNum.num 75) "Waxing Gibbous" "southern" =
      pathD (JSNum.num 75) "Waxing Gibbous" "Northern" :=
  pathD_default_northern (JSNum.num 75) "Waxing Gibbous" "southern" (by decide)

/-- C9: for every finite percent the output agrees with the output at
percent clamped to [0,100]; every percent above 99 yields the full disk
and every percent below 1 yields the empty outline, so no out-of-range
finite percent reaches the general-case arc construction. -/
theorem pathD_clamp_equiv (pc : ℚ) (phase hemi : String) :
    pathD (JSNum.num pc) phase hemi =
      pathD (JSNum.num (max 0 (min 100 pc))) phase hemi ∧
    (99 < pc → pathD (JSNum.num pc) phase hemi = Outline.fullDisk) ∧
    (pc < 1 → pathD (JSNum.num pc) phase hemi = Outline.empty) := by
  refine ⟨?_, fun h => pathD_num_full pc phase hemi (by linarith),
    fun h => pathD_num_empty pc phase hemi (by linarith)⟩
  rcases lt_or_le pc 0 with h0 | h0
  · have hc : max 0 (min 100 pc) = 0 := by
      rw [min_eq_right (by linarith : pc ≤ (100:ℚ)), max_eq_left (le_of_lt h0)]
    rw [hc, pathD_num_empty pc phase hemi (by linarith),
      pathD_num_empty 0 phase hemi (by norm_num)]
  · rcases le_or_lt pc 100 with h100 | h100
    · rw [min_eq_right h100, max_eq_right h0]
    · have hc : max 0 (min 100 pc) = 100 := by
        rw [min_eq_left (le_of_lt h100), max_eq_right (by norm_num : (0:ℚ) ≤ 100)]
      rw [hc, pathD_num_full pc phase hemi (by linarith),
        pathD_num_full 100 phase hemi (by norm_num)]

/-- Witness for C9 at the out-of-range inputs 150 and -5. -/
theorem pathD_clamp_equiv_witness :
    pathD (JSNum.num 150) "Waxing Crescent" "Northern" =
      pathD (JSNum.num (max 0 (min 100 150))) "Waxing Crescent" "Northern" ∧
    pathD (JSNum.num 150) "Waxing Crescent" "Northern" = Outline.fullDisk ∧
    pathD (JSNum.num (-5)) "Waning Gibbous" "Northern" = Outline.empty :=
  ⟨(pathD_clamp_equiv 150 "Waxing Crescent" "Northern").1,
   (pathD_clamp_equiv 150 "Waxing Crescent" "Northern").2.1 (by norm_num),
   (pathD_clamp_equiv (-5) "Waning Gibbous" "Northern").2.2 (by norm_num)⟩

/-- C10: whenever the general case produces a lune, its terminator's
finite horizontal radius r satisfies 0 ≤ r ≤ 44.1 < 45, and the
terminator's vertical radius is the disk radius 45, so the terminator
ellipse never reaches the disk's own edge. -/
theorem terminator_rx_bounds (pc : ℚ) (phase hemi : String)
    (h1 : (1:ℚ)/100 < pc/100) (h2 : pc/100 < (99:ℚ)/100) :
    (∀ r : ℚ, Outline.rxOf (pathD (JSNum.num pc) phase hemi) = some (JSNum.num r) →
      0 ≤ r ∧ r ≤ 441/10 ∧ r < 45) ∧
    (Outline.terminatorOf (pathD (JSNum.num pc) phase hemi)).map ArcSeg.ry = some 45 := by
  have hgen := pathD_num_general pc phase hemi h1 h2
  constructor
  · intro r hr
    rw [hgen] at hr
    simp only [Outline.rxOf, Option.some.injEq, JSNum.num.injEq] at hr
    have habs : |1/2 - pc/100| < (49:ℚ)/100 := abs_lt.mpr ⟨by linarith, by linarith⟩
    have habs0 : (0:ℚ) ≤ |1/2 - pc/100| := abs_nonneg _
    subst hr
    exact ⟨by linarith, by linarith, by linarith⟩
  · rw [hgen]
    rfl

/-- Witness for C10 at percent 25: the radius 22.5 satisfies the bounds
and the terminator's vertical radius is 45. -/
theorem terminator_rx_bounds_witness :
    (0 ≤ (45/2:ℚ) ∧ (45/2:ℚ) ≤ 441/10 ∧ (45/2:ℚ) < 45) ∧
    (Outline.terminatorOf (pathD (JSNum.num 25) "Waxing Crescent" "Northern")).map
      ArcSeg.ry = some 45 := by
  have h := terminator_rx_bounds 25 "Waxing Crescent" "Northern" (by norm_num) (by norm_num)
  refine ⟨h.1 (45/2) ?_, h.2⟩
  rw [pathD_num_general 25 "Waxing Crescent" "Northern" (by norm_num) (by norm_num)]
  norm_num [Outline.rxOf, abs]

/-- C1 counterexample: a NaN percent slips past both degenerate-case
checks (every NaN comparison is false) and the builder silently returns a
lune whose terminator horizontal radius is NaN — it is neither clamped
nor rejected. -/
theorem pathD_nan_produces_nan_rx :
    Outline.nanFree (pathD JSNum.nan "Waxing Crescent" "Northern") = false ∧
    Outline.rxOf (pathD JSNum.nan "Waxing Crescent" "Northern") = some JSNum.nan := by
  decide

/-- C1 (amended): for every non-NaN percent — finite values of any
magnitude and both infinities — the builder totally computes a path with
no NaN component; only a NaN percent produces a NaN-bearing path. -/
theorem pathD_nanFree_of_ne_nan (percent : JSNum) (phase hemi : String)
    (h : percent ≠ JSNum.nan) :
    Outline.nanFree (pathD percent phase hemi) = true := by
  cases percent with
  | nan => exact absurd rfl h
  | posInf => simp [pathD, JSNum.div100, JSNum.geQ, Outline.nanFree]
  | negInf => simp [pathD, JSNum.div100, JSNum.geQ, JSNum.leQ, Outline.nanFree]
  | num q =>
    by_cases hge : (99:ℚ)/100 ≤ q/100
    · rw [pathD_num_full q phase hemi hge]
      rfl
    · by_cases hle : q/100 ≤ (1:ℚ)/100
      · rw [pathD_num_empty q phase hemi hle]
        rfl
      · rw [pathD_num_general q phase hemi (not_le.mp hle) (not_le.mp hge)]
        simp [Outline.nanFree, JSNum.isNaN]

/-- Witness for the amended C1 at percent 50. -/
theorem pathD_nanFree_witness :
    Outline.nanFree (pathD (JSNum.num 50) "Full Moon" "Northern") = true :=
  pathD_nanFree_of_ne_nan (JSNum.num 50) "Full Moon" "Northern" (by decide)
